import Mathlib

/-!
Verification of the simple JSON linter (src/simple_linter.py).

The linter is embedded shallowly: decoded JSON documents become the
inductive type `Json`, Python dict/str operations become Lean functions,
and Python exceptions (AttributeError / TypeError raised by calling
`.strip()`, `.lower()`, `len()` or `.split()` on a non-string) become
`Except PyErr`.  Numbers are modelled as `Int` (no claim involves
floats).  String operations (`strip`, `lower`, `split`, `startswith`)
are modelled over the character lists of Lean strings, agreeing with
Python on ASCII input.
-/

/-- A decoded JSON value, as produced by `json.loads`.  Objects are
association lists with distinct keys (decoded Python dicts). -/
inductive Json where
  | null
  | bool (b : Bool)
  | num (n : Int)
  | str (s : String)
  | arr (items : List Json)
  | obj (fields : List (String × Json))

/-- A Python exception escaping the linter (the linter catches none of
these): `attributeError m` models `AttributeError: ... has no attribute m`,
`typeError m` models a `TypeError` from builtin `m`. -/
inductive PyErr where
  | attributeError (method : String)
  | typeError (builtin : String)

/-- The opening-brace character, written via its code point. -/
def openBrace : Char := Char.ofNat 123

/-- The closing-brace character, written via its code point. -/
def closeBrace : Char := Char.ofNat 125

/-!
Python string primitives, modelled over the character list of the
string (Python semantics on ASCII input).
-/

/-- Python `s.strip()`: remove leading and trailing whitespace. -/
def stripChars (s : String) : String :=
  ⟨((s.data.dropWhile Char.isWhitespace).reverse.dropWhile Char.isWhitespace).reverse⟩

/-- Python `s.lower()` (ASCII case folding). -/
def lowerChars (s : String) : String :=
  ⟨s.data.map Char.toLower⟩

/-- Python `c in s` for a single character `c`. -/
def containsChar (s : String) (c : Char) : Bool :=
  s.data.contains c

/-- Python `s.startswith(p)`. -/
def startsWithStr (s p : String) : Bool :=
  p.data.isPrefixOf s.data

/-- Loop of `splitLines`: `cur` holds the current segment reversed. -/
def splitLinesAux : List Char → List Char → List String
  | [], cur => [⟨cur.reverse⟩]
  | c :: rest, cur =>
    if c = Char.ofNat 10 then ⟨cur.reverse⟩ :: splitLinesAux rest []
    else splitLinesAux rest (c :: cur)

/-- Python `content.split('\n')`: split at every newline, keeping empty
segments (`"".split('\n') == [""]`). -/
def splitLines (s : String) : List String :=
  splitLinesAux s.data []

/-- Loop of `splitWs`: `cur` holds the current word reversed. -/
def splitWsAux : List Char → List Char → List String
  | [], [] => []
  | [], cur => [⟨cur.reverse⟩]
  | c :: rest, cur =>
    if c.isWhitespace then
      (if cur.isEmpty then [] else [⟨cur.reverse⟩]) ++ splitWsAux rest []
    else splitWsAux rest (c :: cur)

/-- Python `s.split()` (no argument): split on whitespace runs, dropping
empty words. -/
def splitWs (s : String) : List String :=
  splitWsAux s.data []

/-- Python truthiness of a decoded JSON value (`if value:`). -/
def pyTruthy : Json → Bool
  | .null => false
  | .bool b => b
  | .num n => n != 0
  | .str s => !s.isEmpty
  | .arr l => !l.isEmpty
  | .obj l => !l.isEmpty

/-- Python `repr(value)` for a decoded JSON value (what `str` shows for
elements of containers; string escaping inside reprs is not modelled). -/
def pyRepr : Json → String
  | .null => "None"
  | .bool true => "True"
  | .bool false => "False"
  | .num n => toString n
  | .str s => "'" ++ s ++ "'"
  | .arr items => "[" ++ String.intercalate ", " (items.attach.map fun x => pyRepr x.1) ++ "]"
  | .obj fields =>
      "\x7b" ++ String.intercalate ", "
        (fields.attach.map fun x => "'" ++ x.1.1 ++ "': " ++ pyRepr x.1.2) ++ "\x7d"
decreasing_by
· have h := List.sizeOf_lt_of_mem x.2
  simp at h ⊢
  omega
· have h := List.sizeOf_lt_of_mem x.2
  obtain ⟨⟨k, v⟩, hv⟩ := x
  simp at h ⊢
  omega

/-- Python `str(value)` for a decoded JSON value (used in f-strings):
agrees with `repr` except on top-level strings, shown unquoted. -/
def pyStr : Json → String
  | .str s => s
  | v => pyRepr v

/-- Python `value.strip()`: succeeds only on strings, raising
`AttributeError` otherwise (the linter calls it without a type guard). -/
def pyStrip : Json → Except PyErr String
  | .str s => .ok (stripChars s)
  | _ => .error (.attributeError "strip")

/-- Python `value.lower()`: succeeds only on strings. -/
def pyLower : Json → Except PyErr String
  | .str s => .ok (lowerChars s)
  | _ => .error (.attributeError "lower")

/-- Python `len(value)` on a decoded JSON value. -/
def pyLen : Json → Except PyErr Nat
  | .str s => .ok s.length
  | .arr l => .ok l.length
  | .obj l => .ok l.length
  | _ => .error (.typeError "len")

/-- Python `value.split()` (split on whitespace, dropping empty parts):
succeeds only on strings. -/
def pySplit : Json → Except PyErr (List String)
  | .str s => .ok (splitWs s)
  | _ => .error (.attributeError "split")

/-- Python `d.get(k)` / `k in d` on a decoded dict (keys are distinct). -/
def objGet (fields : List (String × Json)) (k : String) : Option Json :=
  (fields.find? (fun p => p.1 == k)).map (fun p => p.2)

/-- Python `v == s` for a decoded JSON value against a string literal:
true only when `v` is that string. -/
def jsonEqStr (v : Json) (s : String) : Bool :=
  match v with
  | .str t => t == s
  | _ => false

/-- Python `isinstance(v, dict)`. -/
def isDict : Json → Bool
  | .obj _ => true
  | _ => false

/-- Python `isinstance(v, list)`. -/
def isList : Json → Bool
  | .arr _ => true
  | _ => false

/-!
The line map (`_build_line_map`, source lines 47-63).  The source scans
`content.split('\n')` with `enumerate(lines, 1)` and a counter
`current_item` starting at `-1`; the `'}' in line and ',' in line`
branch of the source is `pass`, so it folds into the final no-change
case here.
-/

/-- Loop of `_build_line_map`: `line_num` is the 1-based number of the
first line still to scan, `current_item` the counter, `acc` the map
built so far (as an insertion-ordered association list). -/
def buildLineMapGo : List String → Nat → Int → List (Nat × Nat) → List (Nat × Nat)
  | [], _, _, acc => acc
  | line :: rest, line_num, current_item, acc =>
    if containsChar line openBrace ∧ current_item = -1 then
      buildLineMapGo rest (line_num + 1) 0 (acc ++ [(0, line_num)])
    else if containsChar line openBrace ∧ current_item ≥ 0 then
      buildLineMapGo rest (line_num + 1) (current_item + 1)
        (acc ++ [((current_item + 1).toNat, line_num)])
    else
      buildLineMapGo rest (line_num + 1) current_item acc

/-- `_build_line_map(content)`: map from array index to source line. -/
def buildLineMap (content : String) : List (Nat × Nat) :=
  buildLineMapGo (splitLines content) 1 (-1) []

/-- `_get_line_info(index)` (source lines 65-68): the recorded line as a
parenthetical suffix, or `""`.  The source tests the Python truthiness
of `line_map.get(index, None)`, so a recorded `0` would also yield `""`
(recorded values are in fact always ≥ 1). -/
def getLineInfo (line_map : List (Nat × Nat)) (index : Nat) : String :=
  match (line_map.find? (fun p => p.1 == index)).map (fun p => p.2) with
  | some n => if n == 0 then "" else " (line " ++ toString n ++ ")"
  | none => ""

/-!
Structural and content checks (`_check_structure`, `_check_content`,
source lines 70-110).  Each check is modelled as a function from the
document to the `(errors, warnings)` it appends, in append order;
content checks may raise (`Except PyErr`).
-/

/-- Element loop of `_check_structure` (source lines 79-82): one error
per non-dict element. -/
def checkStructureGo (line_map : List (Nat × Nat)) : Nat → List Json → List String
  | _, [] => []
  | i, item :: rest =>
    (if isDict item then []
     else ["Item " ++ toString i ++ " should be an object" ++ getLineInfo line_map i])
      ++ checkStructureGo line_map (i + 1) rest

/-- `_check_structure(data)` (source lines 70-82): errors and warnings
it appends. -/
def checkStructure (line_map : List (Nat × Nat)) (data : Json) : List String × List String :=
  match data with
  | .arr items =>
      (checkStructureGo line_map 0 items,
       if items.length == 0 then ["Array is empty"] else [])
  | _ => (["JSON should be an array"], [])

/-- `_validate_data_classification(value, line_info)` (source lines
128-132). -/
def validateDataClassification (value : Json) (line_info : String) : List String :=
  let valid_values := ["DCL1", "DCL2", "DCL3", "DCL4"]
  if pyTruthy value ∧ ¬ valid_values.any (fun s => jsonEqStr value s) then
    ["Invalid Data Classification '" ++ pyStr value ++ "' (should be one of: "
      ++ String.intercalate ", " valid_values ++ ")" ++ line_info]
  else []

/-- `_validate_business_groups(value, line_info)` (source lines
134-142): `len(value)` and `value.lower()` may raise on non-strings (in
execution order, `len` first); a falsy value short-circuits both
checks. -/
def validateBusinessGroups (value : Json) (line_info : String) : Except PyErr (List String) :=
  let valid_starts := ["gip", "eng", "ops", "fin"]
  if pyTruthy value then
    match pyLen value with
    | .error e => .error e
    | .ok n =>
      match pyLower value with
      | .error e => .error e
      | .ok lv =>
          .ok ((if n < 2 then
              ["Business Groups value '" ++ pyStr value
                ++ "' is too short (minimum 2 characters)" ++ line_info]
            else [])
            ++ (if valid_starts.any (fun p => startsWithStr lv p) then []
              else ["Business Groups '" ++ pyStr value ++ "' should start with one of: "
                ++ String.intercalate ", " valid_starts ++ line_info]))
  else .ok []

/-- `_validate_owning_business_group(value, line_info)` (source lines
144-151): `len(value)` and `value.split()` may raise on non-strings (in
execution order, `len` first). -/
def validateOwningBusinessGroup (value : Json) (line_info : String) : Except PyErr (List String) :=
  if pyTruthy value then
    match pyLen value with
    | .error e => .error e
    | .ok n =>
      match pySplit value with
      | .error e => .error e
      | .ok words =>
          .ok ((if n < 5 then
              ["Owning Business group '" ++ pyStr value
                ++ "' is too short (minimum 5 characters)" ++ line_info]
            else [])
            ++ (if words.any (fun w => !w.isEmpty && (w.data.headD (Char.ofNat 32)).isUpper) then []
              else ["Owning Business group '" ++ pyStr value
                ++ "' should have proper capitalization" ++ line_info]))
  else .ok []

/-- `_validate_environment(value, line_info)` (source lines 153-157):
`value.lower()` may raise on non-strings; a falsy value short-circuits
the check. -/
def validateEnvironment (value : Json) (line_info : String) : Except PyErr (List String) :=
  let valid_environments := ["dev", "development", "staging", "stage", "prod", "production"]
  if pyTruthy value then
    match pyLower value with
    | .error e => .error e
    | .ok lv =>
        if valid_environments.any (fun s => lv == s) then .ok []
        else
          .ok ["Invalid Environment '" ++ pyStr value ++ "' (should be one of: "
            ++ String.intercalate ", " valid_environments ++ ")" ++ line_info]
  else .ok []

/-- `_check_specific_tag_values(item, index, line_info)` (source lines
112-126): dispatch on `item.get("tagKey", "")`; the `index` parameter
is unused in the source too.  Warnings appended. -/
def checkSpecificTagValues (item : List (String × Json)) (index : Nat) (line_info : String) :
    Except PyErr (List String) :=
  let tag_key := (objGet item "tagKey").getD (.str "")
  let value := (objGet item "value").getD (.str "")
  if jsonEqStr tag_key "Data Classification" then
    pure (validateDataClassification value line_info)
  else if jsonEqStr tag_key "Business Groups" then
    validateBusinessGroups value line_info
  else if jsonEqStr tag_key "Owning Business group" then
    validateOwningBusinessGroup value line_info
  else if jsonEqStr tag_key "Environment" then
    validateEnvironment value line_info
  else
    pure []

/-- Body of `_check_content` for one dict element at index `i` (source
lines 93-110): `(errors, warnings)` appended for this item.  The
`.strip()` emptiness checks on lines 104 and 106 raise when the present
field is not a string. -/
def checkContentItem (line_map : List (Nat × Nat)) (i : Nat) (item : List (String × Json)) :
    Except PyErr (List String × List String) := do
  let tag_key := (objGet item "tagKey").getD (.str ("Item " ++ toString i))
  let line_info := getLineInfo line_map i
  let errs1 := if (objGet item "tagKey").isNone then
      ["Missing 'tagKey' at position " ++ toString i ++ line_info] else []
  let errs2 := if (objGet item "value").isNone then
      ["Missing 'value' for '" ++ pyStr tag_key ++ "'" ++ line_info] else []
  let warns1 ← match objGet item "tagKey" with
    | some v => do
        let s ← pyStrip v
        pure (if s.isEmpty then
          ["Empty 'tagKey' at position " ++ toString i ++ line_info] else [])
    | none => pure []
  let warns2 ← match objGet item "value" with
    | some v => do
        let s ← pyStrip v
        pure (if s.isEmpty then
          ["Empty 'value' for '" ++ pyStr tag_key ++ "'" ++ line_info] else [])
    | none => pure []
  let warns3 ← checkSpecificTagValues item i line_info
  pure (errs1 ++ errs2, warns1 ++ warns2 ++ warns3)

/-- Element loop of `_check_content` (source lines 89-110): non-dict
elements are skipped (`continue`). -/
def checkContentGo (line_map : List (Nat × Nat)) : Nat → List Json →
    Except PyErr (List String × List String)
  | _, [] => .ok ([], [])
  | i, item :: rest =>
    match item with
    | .obj fields => do
        let (e1, w1) ← checkContentItem line_map i fields
        let (e2, w2) ← checkContentGo line_map (i + 1) rest
        pure (e1 ++ e2, w1 ++ w2)
    | _ => checkContentGo line_map (i + 1) rest

/-- `_check_content(data)` (source lines 84-110): a no-op on non-list
input. -/
def checkContent (line_map : List (Nat × Nat)) (data : Json) :
    Except PyErr (List String × List String) :=
  match data with
  | .arr items => checkContentGo line_map 0 items
  | _ => .ok ([], [])

/-!
The driver `lint_file` (source lines 19-45).  File reading and
`json.loads` are external collaborators; their outcome is passed in as a
`LoadResult`.  The run's observable outcome is a `LintOutcome`.
-/

/-- The state a `SimpleLinter` instance carries between calls
(`self.errors`, `self.warnings`, `self.line_map`). -/
structure LinterState where
  errors : List String
  warnings : List String
  line_map : List (Nat × Nat)

/-- What `json.JSONDecodeError` carries that the message uses. -/
structure DecodeError where
  msg : String
  lineno : Nat

/-- Outcome of reading and decoding the file, performed by the Python
standard library before any linting. -/
inductive LoadResult where
  | fileNotFound
  | decodeFailure (e : DecodeError)
  | loaded (content : String) (data : Json)

/-- Observable outcome of one `lint_file` call: a fatal pre-lint message
with return value `False`, a printed report with the boolean verdict, or
an uncaught Python exception (no report, non-zero process exit). -/
inductive LintOutcome where
  | fatal (message : String)
  | report (errors warnings : List String) (success : Bool)
  | crashed (e : PyErr)

/-- The checking pipeline of `lint_file` after a successful load (source
lines 30, 39-45): build the line map, run both checks, verdict
`errors == []`. -/
def lintData (content : String) (data : Json) :
    Except PyErr (List String × List String × Bool) := do
  let line_map := buildLineMap content
  let (se, sw) := checkStructure line_map data
  let (ce, cw) ← checkContent line_map data
  let errors := se ++ ce
  let warnings := sw ++ cw
  pure (errors, warnings, errors.isEmpty)

/-- `lint_file` (source lines 19-45) on an instance with state `st`:
the state is reset unconditionally (lines 21-23) before the load result
is examined, so `st` cannot influence the run. -/
def lintFile (st : LinterState) (filename : String) (load : LoadResult) :
    LinterState × LintOutcome :=
  let st1 : LinterState := { errors := [], warnings := [], line_map := [] }
  match load with
  | .fileNotFound =>
      (st1, .fatal ("❌ Error: File '" ++ filename ++ "' not found"))
  | .decodeFailure e =>
      (st1, .fatal ("❌ Error: Invalid JSON - " ++ e.msg ++ " at line " ++ toString e.lineno))
  | .loaded content data =>
      match lintData content data with
      | .error e => (st1, .crashed e)
      | .ok (errors, warnings, success) =>
          ({ errors := errors, warnings := warnings, line_map := buildLineMap content },
           .report errors warnings success)

/-- Whether `lint_file`'s caller sees success (`main` exits 0 only
then): fatal load failures return `False`, a crash never returns. -/
def outcomeSuccess : LintOutcome → Bool
  | .report _ _ b => b
  | _ => false

/-!
Spec-side characterization of the line indexer, written from the spec's
description ("the first line containing an opening brace maps index 0
to that 1-based line number, each subsequent line containing an opening
brace increments the counter and records the mapping"): the map should
pair index `i` with the `(i+1)`-th line (1-based) that contains an
opening brace.  It is compared with `buildLineMap`, translated from the
source, in the refinement theorem below.
-/

/-- The 1-based numbers of the lines containing an opening brace, in
order, numbering from `line_num`. -/
def specBraceLines : List String → Nat → List Nat
  | [], _ => []
  | line :: rest, line_num =>
    if containsChar line openBrace then line_num :: specBraceLines rest (line_num + 1)
    else specBraceLines rest (line_num + 1)

/-!
Helper lemmas.
-/

/-- The builder loop enumerates the brace lines: with counter
`c = n - 1` (so `n` entries already recorded), the remaining scan
appends the remaining brace lines paired with indices `n, n+1, ...`. -/
lemma buildLineMapGo_eq (lines : List String) :
    ∀ (line_num : Nat) (c : Int) (n : Nat) (acc : List (Nat × Nat)), c = (n : Int) - 1 →
    buildLineMapGo lines line_num c acc
      = acc ++ List.enumFrom n (specBraceLines lines line_num) := by
  induction lines with
  | nil =>
    intro line_num c n acc hc
    simp [buildLineMapGo, specBraceLines]
  | cons line rest ih =>
    intro line_num c n acc hc
    by_cases hb : containsChar line openBrace = true
    · match n with
      | 0 =>
        have hc1 : c = -1 := by omega
        rw [buildLineMapGo, if_pos ⟨hb, hc1⟩]
        rw [ih (line_num + 1) 0 1 (acc ++ [(0, line_num)]) (by norm_num)]
        rw [specBraceLines, if_pos hb]
        simp [List.enumFrom]
      | m + 1 =>
        have hne : ¬ (containsChar line openBrace = true ∧ c = -1) := by
          rintro ⟨-, h2⟩
          omega
        have hge : c ≥ 0 := by omega
        rw [buildLineMapGo, if_neg hne, if_pos ⟨hb, hge⟩]
        have htn : (c + 1).toNat = m + 1 := by omega
        have hcn : c + 1 = ((m + 2 : Nat) : Int) - 1 := by push_cast; omega
        rw [ih (line_num + 1) (c + 1) (m + 2) _ hcn]
        rw [specBraceLines, if_pos hb, htn]
        simp [List.enumFrom]
    · have h1 : ¬ (containsChar line openBrace = true ∧ c = -1) := by
        rintro ⟨h, -⟩
        exact hb h
      have h2 : ¬ (containsChar line openBrace = true ∧ c ≥ 0) := by
        rintro ⟨h, -⟩
        exact hb h
      rw [buildLineMapGo, if_neg h1, if_neg h2]
      rw [ih (line_num + 1) c n acc hc]
      rw [specBraceLines, if_neg hb]

/-- The built line map is the enumeration of the brace-line numbers. -/
lemma buildLineMap_eq_enum (content : String) :
    buildLineMap content = (specBraceLines (splitLines content) 1).enum := by
  rw [buildLineMap, buildLineMapGo_eq (splitLines content) 1 (-1) 0 [] (by norm_num)]
  rfl

/-- `find?` by first component on an enumeration is positional lookup. -/
lemma find?_enumFrom (l : List Nat) :
    ∀ (k i : Nat), k ≤ i →
    (List.enumFrom k l).find? (fun p => p.1 == i)
      = (l.get? (i - k)).map (fun v => (i, v)) := by
  induction l with
  | nil =>
    intro k i hk
    simp
  | cons v t ih =>
    intro k i hk
    by_cases hki : k = i
    · subst hki
      simp [List.enumFrom, List.find?]
    · have hk1 : k + 1 ≤ i := by omega
      have hne : (k == i) = false := by simp [hki]
      rw [show List.enumFrom k (v :: t) = (k, v) :: List.enumFrom (k + 1) t from rfl]
      rw [List.find?_cons]
      simp only [hne]
      rw [ih (k + 1) i hk1]
      have : i - k = (i - (k + 1)) + 1 := by omega
      rw [this]
      rfl

/-- Brace-line numbers are at least the starting line number. -/
lemma specBraceLines_ge (lines : List String) :
    ∀ (m : Nat) (x : Nat), x ∈ specBraceLines lines m → m ≤ x := by
  induction lines with
  | nil =>
    intro m x hx
    simp [specBraceLines] at hx
  | cons line rest ih =>
    intro m x hx
    rw [specBraceLines] at hx
    by_cases hb : containsChar line openBrace = true
    · rw [if_pos hb] at hx
      rcases List.mem_cons.mp hx with h | h
      · omega
      · have := ih (m + 1) x h
        omega
    · rw [if_neg hb] at hx
      have := ih (m + 1) x hx
      omega

/-- Brace-line numbers are strictly increasing. -/
lemma specBraceLines_chain (lines : List String) :
    ∀ m, List.Chain' (· < ·) (specBraceLines lines m) := by
  induction lines with
  | nil =>
    intro m
    simp [specBraceLines]
  | cons line rest ih =>
    intro m
    rw [specBraceLines]
    by_cases hb : containsChar line openBrace = true
    · rw [if_pos hb]
      refine List.chain'_cons'.mpr ⟨?_, ih (m + 1)⟩
      intro y hy
      have := specBraceLines_ge rest (m + 1) y (List.mem_of_mem_head? hy)
      omega
    · rw [if_neg hb]
      exact ih (m + 1)

/-- Lookup in the built map is positional lookup in the brace lines
(recorded line numbers are ≥ 1, so the truthiness test never hides
one). -/
lemma getLineInfo_buildLineMap (content : String) (i : Nat) :
    getLineInfo (buildLineMap content) i
      = ((specBraceLines (splitLines content) 1).get? i).elim ""
          (fun n => " (line " ++ toString n ++ ")") := by
  rw [getLineInfo, buildLineMap_eq_enum]
  rw [show (specBraceLines (splitLines content) 1).enum
        = List.enumFrom 0 (specBraceLines (splitLines content) 1) from rfl]
  rw [find?_enumFrom _ 0 i (Nat.zero_le i)]
  cases hget : (specBraceLines (splitLines content) 1).get? i with
  | none =>
    rw [List.get?_eq_getElem?] at hget
    simp [hget]
  | some n =>
    have hmem := List.get?_mem hget
    have hge := specBraceLines_ge (splitLines content) 1 n hmem
    rw [List.get?_eq_getElem?] at hget
    simp [hget]
    omega

/-- A non-empty string is Python-truthy. -/
lemma pyTruthy_str (s : String) (h : s ≠ "") : pyTruthy (Json.str s) = true := by
  have hie : s.isEmpty = false := by
    rw [Bool.eq_false_iff]
    intro he
    exact h ((String.isEmpty_iff s).mp he)
  simp [pyTruthy, hie]

/-- The two Business Groups warning texts never coincide (their constant
parts have different lengths). -/
lemma businessGroups_msgs_ne (s li : String) :
    ("Business Groups value '" ++ s ++ "' is too short (minimum 2 characters)" ++ li)
      ≠ ("Business Groups '" ++ s ++ "' should start with one of: "
          ++ String.intercalate ", " ["gip", "eng", "ops", "fin"] ++ li) := by
  intro h
  have hl := congrArg String.length h
  simp only [String.length_append] at hl
  have e1 : ("Business Groups value '" : String).length = 23 := rfl
  have e2 : ("' is too short (minimum 2 characters)" : String).length = 37 := rfl
  have e3 : ("Business Groups '" : String).length = 17 := rfl
  have e4 : ("' should start with one of: " : String).length = 28 := rfl
  have e5 : (String.intercalate ", " ["gip", "eng", "ops", "fin"]).length = 18 := rfl
  rw [e1, e2, e3, e4, e5] at hl
  omega

/-!
The claims.
-/

/-- Claim C1.  The claim states that an element in which `"tagKey"` or
`"value"` is present but bound to a non-string value is tolerated by
the field checker's emptiness check and the run still produces a report
and verdict.  The code instead calls `.strip()` on the raw value
(source lines 104 and 106), which raises `AttributeError` on a
non-string; the exception is not caught, so the run crashes with no
report.  This theorem evaluates the code at the failing input
`[{"tagKey": 1, "value": "x"}]`. -/
theorem nonstring_field_crashes_lint :
    checkContent [] (.arr [.obj [("tagKey", .num 1), ("value", .str "x")]])
      = .error (.attributeError "strip") ∧
    lintFile ⟨[], [], []⟩ "tags.json"
      (.loaded "[\x7b\"tagKey\": 1, \"value\": \"x\"\x7d]"
        (.arr [.obj [("tagKey", .num 1), ("value", .str "x")]]))
      = (⟨[], [], []⟩, .crashed (.attributeError "strip")) := ⟨rfl, rfl⟩

/-- Claim C2, counterexample.  The claim states that for a `"Business
Groups"` item with non-empty string value, the "too short" warning is
appended iff the trimmed length is < 2.  For the value `" a"` the
trimmed length is 1 < 2, yet the validator (which tests the raw
`len(value)`, source line 136) emits only the wrong-start warning and
no "too short" warning. -/
theorem businessGroups_short_value_no_tooShort_warning :
    (stripChars " a").length < 2 ∧
    validateBusinessGroups (Json.str " a") ""
      = .ok ["Business Groups ' a' should start with one of: gip, eng, ops, fin"] ∧
    ("Business Groups value ' a' is too short (minimum 2 characters)" : String) ∉
      ["Business Groups ' a' should start with one of: gip, eng, ops, fin"] :=
  ⟨by decide, rfl, by decide⟩

/-- Claim C2, amended.  For every `"Business Groups"` item with a
non-empty string value, the "too short" warning is appended iff the
value's raw (untrimmed) length is less than 2 characters. -/
theorem businessGroups_tooShort_iff_raw_length (s li : String) (h : s ≠ "") :
    ∃ ws, validateBusinessGroups (Json.str s) li = .ok ws ∧
      ((("Business Groups value '" ++ s ++ "' is too short (minimum 2 characters)" ++ li) ∈ ws)
        ↔ s.length < 2) := by
  have ht := pyTruthy_str s h
  refine ⟨(if s.length < 2 then
      ["Business Groups value '" ++ s ++ "' is too short (minimum 2 characters)" ++ li] else [])
    ++ (if ["gip", "eng", "ops", "fin"].any (fun p => startsWithStr (lowerChars s) p) then []
      else ["Business Groups '" ++ s ++ "' should start with one of: "
        ++ String.intercalate ", " ["gip", "eng", "ops", "fin"] ++ li]), ?_, ?_⟩
  · simp only [validateBusinessGroups, ht, if_true, pyLen, pyLower, pyStr]
  · by_cases h1 : s.length < 2 <;>
      by_cases h2 : (["gip", "eng", "ops", "fin"].any (fun p => startsWithStr (lowerChars s) p)) = true <;>
      simp [h1, h2, businessGroups_msgs_ne s li]

/-- Claim C2, witness: the amended theorem at the one-character value
`"g"` (raw length 1 < 2, so the "too short" warning is present). -/
theorem businessGroups_tooShort_iff_raw_length_witness :
    ∃ ws, validateBusinessGroups (Json.str "g") "" = .ok ws ∧
      ((("Business Groups value '" ++ "g" ++ "' is too short (minimum 2 characters)" ++ "") ∈ ws)
        ↔ ("g" : String).length < 2) :=
  businessGroups_tooShort_iff_raw_length "g" "" (by decide)

/-- Claim C3.  For every decoded top-level value that is not an array,
the run records exactly the one error "JSON should be an array", no
warnings and no field or semantic findings, and the verdict is
failure. -/
theorem nonarray_document_single_error (content : String) (data : Json)
    (h : isList data = false) :
    lintData content data = .ok (["JSON should be an array"], [], false) := by
  cases data
  case arr items => simp [isList] at h
  all_goals rfl

/-- Claim C3, witness: the JSON object `{"a": 1}`. -/
theorem nonarray_document_single_error_witness :
    lintData "\x7b\"a\": 1\x7d" (.obj [("a", .num 1)])
      = .ok (["JSON should be an array"], [], false) :=
  nonarray_document_single_error _ _ rfl

/-- Claim C4.  For every input whose text fails to decode, the run
aborts before any structural, field or semantic check: the single fatal
message contains the decoder's reason and line number, the error and
warning lists stay empty, and the returned verdict is failure —
whatever state the instance carried before the call. -/
theorem decode_failure_short_circuits (st : LinterState) (filename : String) (e : DecodeError) :
    lintFile st filename (.decodeFailure e)
      = ({ errors := [], warnings := [], line_map := [] },
         .fatal ("❌ Error: Invalid JSON - " ++ e.msg ++ " at line " ++ toString e.lineno)) ∧
    outcomeSuccess (lintFile st filename (.decodeFailure e)).2 = false := ⟨rfl, rfl⟩

/-- Claim C5.  For every `"Environment"` item with non-empty string
value, a warning is recorded iff the lowercased value is not in
{dev, development, staging, stage, prod, production}; moreover the
input `[{"tagKey":"Environment","value":"Prod"}]` yields zero errors
and zero warnings, and `[{"tagKey":"Environment","value":"qa"}]` yields
zero errors and exactly one warning naming "qa" and listing the allowed
set. -/
theorem environment_validation (s li : String) (h : s ≠ "") :
    (∃ ws, validateEnvironment (Json.str s) li = .ok ws ∧
      (ws ≠ [] ↔ lowerChars s ∉ ["dev", "development", "staging", "stage", "prod", "production"]))
    ∧ lintData "[\x7b\"tagKey\":\"Environment\",\"value\":\"Prod\"\x7d]"
        (.arr [.obj [("tagKey", .str "Environment"), ("value", .str "Prod")]])
        = .ok ([], [], true)
    ∧ lintData "[\x7b\"tagKey\":\"Environment\",\"value\":\"qa\"\x7d]"
        (.arr [.obj [("tagKey", .str "Environment"), ("value", .str "qa")]])
        = .ok ([], ["Invalid Environment 'qa' (should be one of: dev, development, staging, stage, prod, production) (line 1)"], true) := by
  refine ⟨?_, rfl, rfl⟩
  have ht := pyTruthy_str s h
  by_cases hc : (["dev", "development", "staging", "stage", "prod", "production"].any
      (fun x => lowerChars s == x)) = true
  · have hm : lowerChars s ∈ ["dev", "development", "staging", "stage", "prod", "production"] := by
      simpa using hc
    refine ⟨[], ?_, ?_⟩
    · simp [validateEnvironment, ht, pyLower, hc]
    · simp [hm]
  · have hm : lowerChars s ∉ ["dev", "development", "staging", "stage", "prod", "production"] := by
      simpa using hc
    refine ⟨["Invalid Environment '" ++ s ++ "' (should be one of: "
      ++ String.intercalate ", " ["dev", "development", "staging", "stage", "prod", "production"]
      ++ ")" ++ li], ?_, ?_⟩
    · simp [validateEnvironment, ht, pyLower, hc, pyStr]
    · simp [hm]

/-- Claim C5, witness: the theorem at the invalid value `"qa"`. -/
theorem environment_validation_witness :
    (∃ ws, validateEnvironment (Json.str "qa") "" = .ok ws ∧
      (ws ≠ [] ↔ lowerChars "qa" ∉ ["dev", "development", "staging", "stage", "prod", "production"]))
    ∧ lintData "[\x7b\"tagKey\":\"Environment\",\"value\":\"Prod\"\x7d]"
        (.arr [.obj [("tagKey", .str "Environment"), ("value", .str "Prod")]])
        = .ok ([], [], true)
    ∧ lintData "[\x7b\"tagKey\":\"Environment\",\"value\":\"qa\"\x7d]"
        (.arr [.obj [("tagKey", .str "Environment"), ("value", .str "qa")]])
        = .ok ([], ["Invalid Environment 'qa' (should be one of: dev, development, staging, stage, prod, production) (line 1)"], true) :=
  environment_validation "qa" "" (by decide)

/-- Claim C6.  `lint_file` clears the error list, warning list and line
map unconditionally before any checks run (source lines 21-23), so the
result of a run never depends on the instance's prior state: two runs
on the same unchanged input yield identical findings and verdict. -/
theorem lint_run_state_independent (s1 s2 : LinterState) (filename : String) (load : LoadResult) :
    lintFile s1 filename load = lintFile s2 filename load := rfl

/-- Claim C7.  For the input `[{"value":"x"}]`, exactly one error is
recorded; it begins with "Missing 'tagKey' at position 0" (the source
suffixes the line info " (line 1)"), it is not a "Missing 'value'"
error, there are no warnings, no crash arises from the "Item 0" label
fallback, and the verdict is failure. -/
theorem missing_tagKey_single_error :
    lintData "[\x7b\"value\":\"x\"\x7d]" (.arr [.obj [("value", .str "x")]])
      = .ok (["Missing 'tagKey' at position 0 (line 1)"], [], false) ∧
    startsWithStr "Missing 'tagKey' at position 0 (line 1)" "Missing 'tagKey' at position 0" = true ∧
    startsWithStr "Missing 'tagKey' at position 0 (line 1)" "Missing 'value'" = false :=
  ⟨rfl, rfl, rfl⟩

/-- Claim C8.  The builder scans lines in order with a counter
initialized to unset: the map pairs index 0 with the 1-based number of
the first line containing an opening brace, and each subsequent brace
line increments the counter and records the mapping — i.e. the map is
exactly the enumeration of the brace-line numbers.  Lookup of an index
returns the suffix " (line N)" when the index was recorded and the
empty string otherwise. -/
theorem line_indexer_refines_spec (content : String) (i : Nat) :
    buildLineMap content = (specBraceLines (splitLines content) 1).enum ∧
    getLineInfo (buildLineMap content) i
      = ((specBraceLines (splitLines content) 1).get? i).elim ""
          (fun n => " (line " ++ toString n ++ ")") :=
  ⟨buildLineMap_eq_enum content, getLineInfo_buildLineMap content i⟩

/-- Claim C9.  For every raw input text, the line map's key sequence is
exactly 0, 1, ..., k (possibly empty), and the recorded line numbers
strictly increase with the index. -/
theorem line_map_keys_contiguous_values_increasing (content : String) :
    (buildLineMap content).map Prod.fst = List.range (buildLineMap content).length ∧
    List.Chain' (fun p q : Nat × Nat => p.2 < q.2) (buildLineMap content) := by
  rw [buildLineMap_eq_enum]
  constructor
  · rw [List.enum_map_fst, List.enum_length]
  · have h := specBraceLines_chain (splitLines content) 1
    rw [← List.enum_map_snd (specBraceLines (splitLines content) 1)] at h
    exact (List.chain'_map Prod.snd).mp h

/-- Claim C10.  For every item whose `"tagKey"` is `"Environment"` and
whose `"value"` is absent or the empty string, the Environment
validator is skipped without recording any warning (the dispatch
substitutes `""`, which is falsy). -/
theorem environment_empty_value_skipped (item : List (String × Json)) (i : Nat) (li : String)
    (htag : objGet item "tagKey" = some (Json.str "Environment"))
    (hval : objGet item "value" = none ∨ objGet item "value" = some (Json.str "")) :
    checkSpecificTagValues item i li = .ok [] := by
  simp only [checkSpecificTagValues]
  rcases hval with h | h <;> rw [htag, h] <;> rfl

/-- Claim C10, witness: an Environment item with no `"value"` key. -/
theorem environment_empty_value_skipped_witness :
    checkSpecificTagValues [("tagKey", Json.str "Environment")] 0 "" = .ok [] :=
  environment_empty_value_skipped _ 0 "" rfl (Or.inl rfl)
